import Mathlib

/-!
Verification of the YourSurvivalExpert backend (src/backend/main.py).

The Python service is embedded shallowly.  Pure helper functions become Lean
functions over `String` (a `String` is its list of characters); Python dicts of
strings become insertion-ordered association lists; the regular expressions of
the source are translated into executable character-list matchers with the same
search/backtracking semantics on the ASCII range (the service handles chat text;
Python's unicode-aware `\w`/`\s`/`lower()` are modelled at ASCII granularity).
The HTTP handlers become functions parameterised by the outcomes of their
external collaborators (the OpenAI completion call, the reference-page fetch and
the SMTP session), and Python exceptions become `Except`.
-/

namespace YSE

/-- ASCII whitespace, modelling the characters matched by Python's regex class
backslash-s (and by str.strip) on the ASCII range. -/
def isSpaceChar (c : Char) : Bool :=
  c == ' ' || c == '\t' || c == '\n' || c == '\r' || c == Char.ofNat 11 || c == Char.ofNat 12

/-- ASCII word character, modelling the regex class backslash-w (letters, digits,
underscore) on the ASCII range. -/
def isWordChar (c : Char) : Bool :=
  c.isAlpha || c.isDigit || c == '_'

def isAsciiLower (c : Char) : Bool :=
  'a' ≤ c && c ≤ 'z'

/-- Python str.lower(), per character (ASCII range). -/
def pyLower (s : String) : String :=
  ⟨s.data.map Char.toLower⟩

/-- Python str.strip() on a character list: drop leading and trailing whitespace. -/
def stripL (cs : List Char) : List Char :=
  ((cs.dropWhile isSpaceChar).reverse.dropWhile isSpaceChar).reverse

/-- Python str.strip(). -/
def pyStrip (s : String) : String :=
  ⟨stripL s.data⟩

/-- Models re.sub of a negated character class with the empty string: keep only
the characters satisfying `keep`. -/
def keepChars (keep : Char → Bool) (s : String) : String :=
  ⟨s.data.filter keep⟩

/-- Python len() of a string, in characters. -/
def pyLen (s : String) : Nat :=
  s.data.length

/-- Word-character test on an optional context character; outside the string
counts as a non-word character. -/
def isWordOpt : Option Char → Bool
  | none => false
  | some c => isWordChar c

/-- Regex word boundary between two adjacent context characters. -/
def wordBoundary (a b : Option Char) : Bool :=
  isWordOpt a != isWordOpt b

/-- Does one of the keywords occur at the head of `cs`, with word boundaries on
both sides?  `prev` is the character immediately before this position. -/
def kwHere (kws : List (List Char)) (prev : Option Char) (cs : List Char) : Bool :=
  kws.any fun kw =>
    kw.isPrefixOf cs && wordBoundary prev cs.head? &&
      wordBoundary kw.getLast? ((cs.drop kw.length).head?)

/-- Scanning loop of a word-bounded keyword search (re.search of a
backslash-b(kw1|kw2|...)backslash-b pattern): try every position left to right. -/
def searchWordAux (kws : List (List Char)) : Option Char → List Char → Bool
  | prev, [] => kwHere kws prev []
  | prev, c :: rest => kwHere kws prev (c :: rest) || searchWordAux kws (some c) rest

/-- Models re.search of a word-bounded alternation of literal keywords. -/
def searchWord (kws : List String) (s : String) : Bool :=
  searchWordAux (kws.map String.data) none s.data

/-- Association-list model of a Python string-to-string dict: insertion order
preserved, keys unique in any list built by dict operations. -/
abbrev SDict := List (String × String)

/-- Python d.get(k): the value at the first (for a dict: only) matching key. -/
def dictGet : SDict → String → Option String
  | [], _ => none
  | kv :: rest, k => if kv.1 == k then some kv.2 else dictGet rest k

/-- Key list of a dict, in insertion order. -/
def dictKeys (d : SDict) : List String :=
  d.map Prod.fst

/-- Python d[k] = v: replace the value in place if the key is present, else
append the new key at the end. -/
def dictSet : SDict → String → String → SDict
  | [], k, v => [(k, v)]
  | kv :: rest, k, v => if kv.1 == k then (k, v) :: rest else kv :: dictSet rest k v

/-- PROFILE_TEMPLATE from main.py: the three intake fields, initially empty. -/
def PROFILE_TEMPLATE : SDict :=
  [("preparingFor", ""), ("concern", ""), ("region", "")]

/-- QUESTION_ORDER from main.py: the fixed field order with the canned question
for each field. -/
def QUESTION_ORDER : List (String × String) :=
  [("preparingFor", "Who are you preparing for — yourself or a household/family?"),
   ("concern", "What situation are you most concerned about?"),
   ("region", "What general region are you in?")]

/-- Models normalize_profile from main.py: merged = PROFILE_TEMPLATE.copy();
merged.update(k: v for the caller's items with truthy v).  A `None` profile is
the empty list. -/
def normalize_profile (profile : SDict) : SDict :=
  (profile.filter (fun kv => kv.2 != "")).foldl (fun m kv => dictSet m kv.1 kv.2) PROFILE_TEMPLATE

/-- Models get_missing_fields from main.py: the QUESTION_ORDER keys whose value
is falsy in the profile (absent, or present with the empty string). -/
def get_missing_fields (profile : SDict) : List String :=
  (QUESTION_ORDER.filter (fun kv => ((dictGet profile kv.1).getD "") == "")).map Prod.fst

theorem falsyGet_eq_decide (o : Option String) :
    ((o.getD "") == "") = decide (o = none ∨ o = some "") := by
  cases o with
  | none => simp
  | some v =>
    by_cases h : v = "" <;> simp [Option.getD, h]

theorem map_fst_filter (p : String → Bool) :
    ∀ l : List (String × String),
      (l.filter (fun kv => p kv.1)).map Prod.fst = (l.map Prod.fst).filter p := by
  intro l
  induction l with
  | nil => rfl
  | cons a t ih =>
    by_cases h : p a.1 <;> simp [List.filter_cons, h, ih]

/-- C4: get_missing_fields returns exactly the field names of QUESTION_ORDER
whose value is empty or absent in the profile, in QUESTION_ORDER order
(preparingFor, concern, region).  The embedding is a pure function, so there
are no side effects. -/
theorem get_missing_fields_spec (profile : SDict) :
    get_missing_fields profile =
      ["preparingFor", "concern", "region"].filter
        (fun k => decide (dictGet profile k = none ∨ dictGet profile k = some "")) := by
  have h1 : get_missing_fields profile =
      (QUESTION_ORDER.map Prod.fst).filter (fun k => ((dictGet profile k).getD "") == "") :=
    map_fst_filter (fun k => ((dictGet profile k).getD "") == "") QUESTION_ORDER
  have h2 : (fun k => ((dictGet profile k).getD "") == "") =
      (fun k => decide (dictGet profile k = none ∨ dictGet profile k = some "")) :=
    funext fun k => falsyGet_eq_decide (dictGet profile k)
  rw [h1, h2]
  rfl

theorem mem_dictKeys_dictSet (d : SDict) (k v k' : String) :
    k' ∈ dictKeys (dictSet d k v) ↔ k' ∈ dictKeys d ∨ k' = k := by
  induction d with
  | nil => simp [dictSet, dictKeys]
  | cons kv rest ih =>
    by_cases h : kv.1 = k
    · simp [dictSet, dictKeys, h]
      tauto
    · have hb : (kv.1 == k) = false := by simp [h]
      simp [dictSet, hb, dictKeys] at *
      tauto

theorem mem_keys_foldl_set (ds : SDict) :
    ∀ (init : SDict) (k : String),
      k ∈ dictKeys (ds.foldl (fun m kv => dictSet m kv.1 kv.2) init) ↔
        k ∈ dictKeys init ∨ ∃ v, (k, v) ∈ ds := by
  induction ds with
  | nil => intro init k; simp
  | cons a t ih =>
    intro init k
    rw [List.foldl_cons, ih (dictSet init a.1 a.2) k, mem_dictKeys_dictSet]
    constructor
    · rintro ((h | h) | ⟨v, hv⟩)
      · exact Or.inl h
      · exact Or.inr ⟨a.2, by rw [h]; simp [List.mem_cons]⟩
      · exact Or.inr ⟨v, List.mem_cons_of_mem _ hv⟩
    · rintro (h | ⟨v, hv⟩)
      · exact Or.inl (Or.inl h)
      · rcases List.mem_cons.mp hv with heq | ht
        · exact Or.inl (Or.inr (by rw [← heq]))
        · exact Or.inr ⟨v, ht⟩

theorem dictGet_dictSet (d : SDict) (k v k' : String) :
    dictGet (dictSet d k v) k' = if k = k' then some v else dictGet d k' := by
  induction d with
  | nil => by_cases h : k = k' <;> simp [dictSet, dictGet, h]
  | cons kv rest ih =>
    by_cases h : kv.1 = k
    · have hb : (kv.1 == k) = true := by simp [h]
      by_cases h' : k = k' <;> simp [dictSet, dictGet, hb, h, h']
    · have hb : (kv.1 == k) = false := by simp [h]
      by_cases h' : k = k'
      · subst h'
        simp [dictSet, dictGet, hb, ih, h]
      · by_cases h'' : kv.1 = k'
        · have hb' : (kv.1 == k') = true := by simp [h'']
          simp [dictSet, dictGet, hb, hb', h']
        · have hb' : (kv.1 == k') = false := by simp [h'']
          simp [dictSet, dictGet, hb, hb', h', ih]

/-- Last value written for key `k` when iterating the items of `ds` in order. -/
def lastVal : SDict → String → Option String
  | [], _ => none
  | kv :: rest, k =>
    match lastVal rest k with
    | some v => some v
    | none => if kv.1 == k then some kv.2 else none

theorem dictGet_foldl_set (ds : SDict) :
    ∀ (init : SDict) (k : String),
      dictGet (ds.foldl (fun m kv => dictSet m kv.1 kv.2) init) k =
        match lastVal ds k with
        | some v => some v
        | none => dictGet init k := by
  induction ds with
  | nil => intro init k; rfl
  | cons a t ih =>
    intro init k
    rw [List.foldl_cons, ih (dictSet init a.1 a.2) k]
    cases hl : lastVal t k with
    | some v => simp [lastVal, hl]
    | none =>
      rw [dictGet_dictSet]
      by_cases h : a.1 = k
      · simp [lastVal, hl, h]
      · have hb : (a.1 == k) = false := by simp [h]
        simp [lastVal, hl, hb, h]

theorem lastVal_mem (ds : SDict) (k v : String) :
    lastVal ds k = some v → (k, v) ∈ ds := by
  induction ds with
  | nil => intro h; exact absurd h (by simp [lastVal])
  | cons a t ih =>
    intro h
    unfold lastVal at h
    cases hl : lastVal t k with
    | some w =>
      rw [hl] at h
      exact List.mem_cons_of_mem _ (ih (by rw [hl, ← h]))
    | none =>
      rw [hl] at h
      by_cases hk : a.1 = k
      · simp [hk] at h
        have : (k, v) = a := by
          cases a with
          | mk a1 a2 => simp at hk h; rw [hk, h]
        rw [this]
        exact List.mem_cons_self _ _
      · simp [hk] at h

theorem lastVal_none (ds : SDict) (k : String) :
    lastVal ds k = none → ∀ v, (k, v) ∉ ds := by
  induction ds with
  | nil => intro _ v; simp
  | cons a t ih =>
    intro h v
    unfold lastVal at h
    cases hl : lastVal t k with
    | some w => rw [hl] at h; exact absurd h (by simp)
    | none =>
      rw [hl] at h
      intro hmem
      rcases List.mem_cons.mp hmem with heq | ht
      · have : a.1 = k := by rw [← heq]
        simp [this] at h
      · exact ih hl v ht

/-- C2 counterexample: a caller-supplied unknown key with a non-empty value
survives the merge, so the key set of normalize_profile's result is not the
closed field set — the claim fails as stated. -/
theorem normalize_profile_not_closed :
    dictKeys (normalize_profile [("foo", "bar")]) ≠ ["preparingFor", "concern", "region"] ∧
    ("foo", "bar") ∈ normalize_profile [("foo", "bar")] := by
  constructor
  · decide
  · decide

/-- C2 amended: normalize_profile always yields the three fixed fields
(empty string when the caller did not supply a non-empty value), and drops
caller items with empty values; but caller keys outside the fixed field set
whose values are non-empty are retained in the result, so the key set is the
fixed fields plus those caller keys, not the closed field set alone. -/
theorem normalize_profile_merge_spec (d : SDict) :
    (∀ k, k ∈ dictKeys (normalize_profile d) ↔
        (k ∈ dictKeys PROFILE_TEMPLATE ∨ ∃ v, (k, v) ∈ d ∧ v ≠ "")) ∧
    (∀ f, f ∈ dictKeys PROFILE_TEMPLATE →
      ∃ v, dictGet (normalize_profile d) f = some v ∧
        (v ≠ "" → (f, v) ∈ d) ∧
        (v = "" → ∀ w, (f, w) ∈ d → w = "")) := by
  constructor
  · intro k
    unfold normalize_profile
    rw [mem_keys_foldl_set]
    constructor
    · rintro (h | ⟨v, hv⟩)
      · exact Or.inl h
      · rcases List.mem_filter.mp hv with ⟨hmem, hne⟩
        exact Or.inr ⟨v, hmem, by simpa using hne⟩
    · rintro (h | ⟨v, hv, hne⟩)
      · exact Or.inl h
      · exact Or.inr ⟨v, List.mem_filter.mpr ⟨hv, by simpa using hne⟩⟩
  · intro f hf
    have htempl : dictGet PROFILE_TEMPLATE f = some "" := by
      simp only [dictKeys, PROFILE_TEMPLATE, List.map_cons, List.map_nil, List.mem_cons,
        List.not_mem_nil, or_false] at hf
      rcases hf with h | h | h <;> rw [h] <;> rfl
    unfold normalize_profile
    rw [dictGet_foldl_set]
    cases hl : lastVal (d.filter (fun kv => kv.2 != "")) f with
    | some v =>
      refine ⟨v, rfl, ?_, ?_⟩
      · intro _
        exact (List.mem_filter.mp (lastVal_mem _ _ _ hl)).1
      · intro hv0
        have := (List.mem_filter.mp (lastVal_mem _ _ _ hl)).2
        simp [hv0] at this
    | none =>
      refine ⟨"", by rw [htempl], by intro h; exact absurd rfl h, ?_⟩
      intro _ w hw
      by_contra hne
      exact lastVal_none _ _ hl w (List.mem_filter.mpr ⟨hw, by simpa using hne⟩)

/-- C2 witness: instantiating the amended merge description at the concrete
caller profile with the unknown key. -/
theorem normalize_profile_merge_spec_witness :
    ("concern" ∈ dictKeys PROFILE_TEMPLATE) ∧
    (∃ v, dictGet (normalize_profile [("foo", "bar")]) ("concern") = some v ∧
      (v ≠ "" → (("concern"), v) ∈ [("foo", "bar")]) ∧
      (v = "" → ∀ w, (("concern"), w) ∈ [("foo", "bar")] → w = "")) :=
  ⟨by decide, (normalize_profile_merge_spec [("foo", "bar")]).2 ("concern") (by decide)⟩

/-- Profile record used by the handler pipeline.  normalize_profile guarantees
the three fixed keys are present; the extractor and the completion checker read
and write only these three keys, so the handler-side profile is modelled as this
projection (caller-supplied extra keys are inert: never read, never written). -/
structure Profile where
  preparingFor : String
  concern : String
  region : String
deriving DecidableEq, Repr

/-- Keyword set of the family/household branch of the preparingFor matcher. -/
def familyKws : List String :=
  ["family", "kids", "children", "household", "partner", "spouse"]

/-- Keyword set of the Myself branch of the preparingFor matcher. -/
def selfKws : List String :=
  ["myself", "yourself", "self", "just me", "solo", "single", "only me", "for me", "me"]

/-- Keyword set of the generic-question guard in the concern matcher. -/
def genericQuestionKws : List String :=
  ["what", "which", "choices", "options"]

/-- Keyword set of the other-field guard in the region heuristic. -/
def otherFieldKws : List String :=
  ["family", "kids", "children", "household", "partner", "spouse", "myself", "self",
   "solo", "single", "only me", "beginner", "intermediate", "advanced"]

/-- Bare-greeting set from extract_profile_from_message. -/
def greeting_terms : List String :=
  ["hi", "hello", "hey", "yo", "thanks", "thank you", "ok", "okay"]

/-- Characters kept by the concern matcher's re.sub (removal of all but
lowercase letters, whitespace and hyphens). -/
def concernKeep (c : Char) : Bool :=
  isAsciiLower c || isSpaceChar c || c == '-'

/-- Characters kept by the region heuristic's re.sub (removal of all but
lowercase letters and whitespace). -/
def regionKeep (c : Char) : Bool :=
  isAsciiLower c || isSpaceChar c

/-- common_regions lookup table from extract_profile_from_message. -/
def common_regions : SDict :=
  [("us", "United States"), ("usa", "United States"),
   ("united states", "United States"), ("united states of america", "United States"),
   ("uk", "United Kingdom"), ("united kingdom", "United Kingdom"),
   ("canada", "Canada"), ("australia", "Australia")]

/-- Length of the maximal run of characters satisfying `f` at the head of `cs`. -/
def classRunLen (f : Char → Bool) (cs : List Char) : Nat :=
  (cs.takeWhile f).length

/-- Character class of the region regex capture group `[A-Za-z\s]`. -/
def letterOrSpace (c : Char) : Bool :=
  c.isAlpha || isSpaceChar c

/-- Match attempt at one position for the region regex
`\b(?:in|from|near)\s+([A-Za-z\s]{2,40})` (IGNORECASE): a word boundary, one of
the keywords case-insensitively, then greedily at least one whitespace character
and a 2-40 character capture of letters/whitespace.  With `w` the whitespace run
after the keyword and `M` the letters-or-whitespace run there, Python's
backtracking succeeds iff `1 ≤ w` and `3 ≤ M`, giving `\s+` the largest count
`t = min w (M-2)` that still leaves the capture two characters, and the greedy
capture the next `min 40 (M-t)` characters. -/
def regionKwAt (prev : Option Char) (cs : List Char) : Option (List Char) :=
  (["in", "from", "near"].map String.data).findSome? fun kw =>
    if ((cs.take kw.length).map Char.toLower == kw) && wordBoundary prev cs.head? then
      let rest := cs.drop kw.length
      let w := classRunLen isSpaceChar rest
      let M := classRunLen letterOrSpace rest
      if 1 ≤ w && 3 ≤ M then
        let t := min w (M - 2)
        some ((rest.drop t).take (min 40 (M - t)))
      else none
    else none

/-- Left-to-right scan of re.search for the region keyword regex. -/
def regionKwSearch : Option Char → List Char → Option (List Char)
  | prev, [] => regionKwAt prev []
  | prev, c :: rest =>
    match regionKwAt prev (c :: rest) with
    | some r => some r
    | none => regionKwSearch (some c) rest

/-- Models region_match = re.search(r"\b(?:in|from|near)\s+([A-Za-z\s]{2,40})",
message, re.IGNORECASE): the raw capture group of the leftmost match. -/
def region_keyword_capture (message : String) : Option String :=
  (regionKwSearch none message.data).map String.mk

/-- First if-block of extract_profile_from_message: the preparingFor matcher. -/
def stepPreparingFor (message : String) (p : Profile) : Profile :=
  if p.preparingFor == "" then
    let lower := pyLower message
    if searchWord familyKws lower then { p with preparingFor := "Family or household" }
    else if searchWord selfKws lower then { p with preparingFor := "Myself" }
    else p
  else p

/-- Second if-block of extract_profile_from_message: the concern matcher. -/
def stepConcern (message : String) (p : Profile) : Profile :=
  if p.concern == "" then
    let lower := pyLower message
    let cleaned := pyStrip (keepChars concernKeep lower)
    let is_question := message.data.contains '?'
    let has_generic_question := searchWord genericQuestionKws lower
    if (3 ≤ pyLen cleaned && pyLen cleaned ≤ 40) && !is_question && !has_generic_question then
      { p with concern := pyStrip message }
    else p
  else p

/-- Third if-block of extract_profile_from_message: the region keyword matcher
(region := region_match.group(1).strip() when the regex matches). -/
def stepRegionKeyword (message : String) (p : Profile) : Profile :=
  if p.region == "" then
    match region_keyword_capture message with
    | some grp => { p with region := pyStrip grp }
    | none => p
  else p

/-- Fourth if-block of extract_profile_from_message: common-regions lookup and
the short-region heuristic catch-all. -/
def stepRegionHeuristic (message : String) (p : Profile) : Profile :=
  if p.region == "" then
    let lower := pyLower message
    let normalized := pyStrip (keepChars regionKeep lower)
    match dictGet common_regions normalized with
    | some r => { p with region := r }
    | none =>
      let is_short_region :=
        (3 ≤ pyLen normalized && pyLen normalized ≤ 40) &&
          (normalized != "" && normalized.data.all regionKeep)
      let is_not_other_field := !(searchWord otherFieldKws lower)
      let is_not_greeting := !(greeting_terms.contains normalized)
      if is_short_region && is_not_other_field && is_not_greeting then
        { p with region := pyStrip message }
      else p
  else p

/-- Models extract_profile_from_message from main.py: a falsy message (None or
empty) returns the profile unchanged; otherwise the four matcher blocks run in
source order on a copy of the profile. -/
def extract_profile_from_message (profile : Profile) (message : Option String) : Profile :=
  match message with
  | none => profile
  | some msg =>
    if msg == "" then profile
    else stepRegionHeuristic msg (stepRegionKeyword msg (stepConcern msg (stepPreparingFor msg profile)))

theorem stepPreparingFor_concern (m : String) (p : Profile) :
    (stepPreparingFor m p).concern = p.concern := by
  unfold stepPreparingFor
  repeat first | rfl | split | dsimp only

theorem stepPreparingFor_region (m : String) (p : Profile) :
    (stepPreparingFor m p).region = p.region := by
  unfold stepPreparingFor
  repeat first | rfl | split | dsimp only

theorem stepPreparingFor_keep (m : String) (p : Profile) (h : p.preparingFor ≠ "") :
    (stepPreparingFor m p).preparingFor = p.preparingFor := by
  have hb : (p.preparingFor == "") = false := by simp [h]
  simp [stepPreparingFor, hb]

theorem stepConcern_preparingFor (m : String) (p : Profile) :
    (stepConcern m p).preparingFor = p.preparingFor := by
  unfold stepConcern
  repeat first | rfl | split | dsimp only

theorem stepConcern_region (m : String) (p : Profile) :
    (stepConcern m p).region = p.region := by
  unfold stepConcern
  repeat first | rfl | split | dsimp only

theorem stepConcern_keep (m : String) (p : Profile) (h : p.concern ≠ "") :
    (stepConcern m p).concern = p.concern := by
  have hb : (p.concern == "") = false := by simp [h]
  simp [stepConcern, hb]

theorem stepRegionKeyword_preparingFor (m : String) (p : Profile) :
    (stepRegionKeyword m p).preparingFor = p.preparingFor := by
  unfold stepRegionKeyword
  repeat first | rfl | split | dsimp only

theorem stepRegionKeyword_concern (m : String) (p : Profile) :
    (stepRegionKeyword m p).concern = p.concern := by
  unfold stepRegionKeyword
  repeat first | rfl | split | dsimp only

theorem stepRegionKeyword_keep (m : String) (p : Profile) (h : p.region ≠ "") :
    (stepRegionKeyword m p).region = p.region := by
  have hb : (p.region == "") = false := by simp [h]
  simp [stepRegionKeyword, hb]

theorem stepRegionHeuristic_preparingFor (m : String) (p : Profile) :
    (stepRegionHeuristic m p).preparingFor = p.preparingFor := by
  unfold stepRegionHeuristic
  repeat first | rfl | split | dsimp only

theorem stepRegionHeuristic_concern (m : String) (p : Profile) :
    (stepRegionHeuristic m p).concern = p.concern := by
  unfold stepRegionHeuristic
  repeat first | rfl | split | dsimp only

theorem stepRegionHeuristic_keep (m : String) (p : Profile) (h : p.region ≠ "") :
    (stepRegionHeuristic m p).region = p.region := by
  have hb : (p.region == "") = false := by simp [h]
  simp [stepRegionHeuristic, hb]

theorem extract_keeps (p : Profile) (m : Option String) :
    (p.preparingFor ≠ "" → (extract_profile_from_message p m).preparingFor = p.preparingFor) ∧
    (p.concern ≠ "" → (extract_profile_from_message p m).concern = p.concern) ∧
    (p.region ≠ "" → (extract_profile_from_message p m).region = p.region) := by
  cases m with
  | none => exact ⟨fun _ => rfl, fun _ => rfl, fun _ => rfl⟩
  | some msg =>
    by_cases hm : msg = ""
    · subst hm
      exact ⟨fun _ => rfl, fun _ => rfl, fun _ => rfl⟩
    · have h4 : extract_profile_from_message p (some msg) =
          stepRegionHeuristic msg (stepRegionKeyword msg (stepConcern msg (stepPreparingFor msg p))) := by
        simp [extract_profile_from_message, hm]
      rw [h4]
      refine ⟨?_, ?_, ?_⟩
      · intro h
        rw [stepRegionHeuristic_preparingFor, stepRegionKeyword_preparingFor,
          stepConcern_preparingFor, stepPreparingFor_keep _ _ h]
      · intro h
        rw [stepRegionHeuristic_concern, stepRegionKeyword_concern,
          stepConcern_keep _ _ (by rw [stepPreparingFor_concern]; exact h),
          stepPreparingFor_concern]
      · intro h
        have h1 : (stepConcern msg (stepPreparingFor msg p)).region = p.region := by
          rw [stepConcern_region, stepPreparingFor_region]
        rw [stepRegionHeuristic_keep _ _ (by rw [stepRegionKeyword_keep _ _ (by rw [h1]; exact h), h1]; exact h),
          stepRegionKeyword_keep _ _ (by rw [h1]; exact h), h1]

/-- C3: a field that is non-empty in the input profile keeps its value through
the extractor, for every message; consequently a second application of the
extractor with the same message changes nothing for fields that are set after
the first application. -/
theorem extract_never_overwrites (p : Profile) (m : Option String) :
    ((p.preparingFor ≠ "" → (extract_profile_from_message p m).preparingFor = p.preparingFor) ∧
     (p.concern ≠ "" → (extract_profile_from_message p m).concern = p.concern) ∧
     (p.region ≠ "" → (extract_profile_from_message p m).region = p.region)) ∧
    (((extract_profile_from_message p m).preparingFor ≠ "" →
        (extract_profile_from_message (extract_profile_from_message p m) m).preparingFor =
          (extract_profile_from_message p m).preparingFor) ∧
     ((extract_profile_from_message p m).concern ≠ "" →
        (extract_profile_from_message (extract_profile_from_message p m) m).concern =
          (extract_profile_from_message p m).concern) ∧
     ((extract_profile_from_message p m).region ≠ "" →
        (extract_profile_from_message (extract_profile_from_message p m) m).region =
          (extract_profile_from_message p m).region)) :=
  ⟨extract_keeps p m, extract_keeps (extract_profile_from_message p m) m⟩

/-- C3 witness: a fully set profile passes through the extractor unchanged field
by field, at a concrete message that would otherwise match every matcher. -/
theorem extract_never_overwrites_witness :
    (extract_profile_from_message ⟨"Myself", "storms", "Texas"⟩
        (some ("hello family from Canada"))).preparingFor = "Myself" ∧
    (extract_profile_from_message ⟨"Myself", "storms", "Texas"⟩
        (some ("hello family from Canada"))).concern = "storms" ∧
    (extract_profile_from_message ⟨"Myself", "storms", "Texas"⟩
        (some ("hello family from Canada"))).region = "Texas" :=
  ⟨(extract_never_overwrites ⟨"Myself", "storms", "Texas"⟩ (some ("hello family from Canada"))).1.1
      (by decide),
   (extract_never_overwrites ⟨"Myself", "storms", "Texas"⟩ (some ("hello family from Canada"))).1.2.1
      (by decide),
   (extract_never_overwrites ⟨"Myself", "storms", "Texas"⟩ (some ("hello family from Canada"))).1.2.2
      (by decide)⟩

/-- Modelled from the spec: the three-tier region fallback.  A profile with the
region already set is untouched; otherwise tier 1 (the in/from/near keyword
capture, trimmed) is used if it yields a non-empty value, else tier 2 (the
common-regions lookup of the letters-and-spaces-only normalization of the
message), else tier 3 (the trimmed original message, when the normalization has
length 3-40 and is solely letters/spaces, no other-field keyword occurs in the
message, and it is not a bare greeting).  Each tier applies only if the previous
tier found nothing, where a tier whose capture trims to the empty string counts
as having found nothing. -/
def region_tiers (p : Profile) (message : String) : String :=
  if p.region != "" then p.region
  else
    let tier1 :=
      match region_keyword_capture message with
      | some grp => pyStrip grp
      | none => ""
    if tier1 != "" then tier1
    else
      let normalized := pyStrip (keepChars regionKeep (pyLower message))
      match dictGet common_regions normalized with
      | some r => r
      | none =>
        if ((3 ≤ pyLen normalized && pyLen normalized ≤ 40) &&
              (normalized != "" && normalized.data.all regionKeep)) &&
            !(searchWord otherFieldKws (pyLower message)) && !(greeting_terms.contains normalized) then
          pyStrip message
        else ""

theorem heuristic_region_empty (m : String) (q : Profile) (hq : q.region = "") :
    (stepRegionHeuristic m q).region =
      (let normalized := pyStrip (keepChars regionKeep (pyLower m))
       match dictGet common_regions normalized with
       | some r => r
       | none =>
         if ((3 ≤ pyLen normalized && pyLen normalized ≤ 40) &&
               (normalized != "" && normalized.data.all regionKeep)) &&
             !(searchWord otherFieldKws (pyLower m)) && !(greeting_terms.contains normalized) then
           pyStrip m
         else "") := by
  have hb : (q.region == "") = true := by simp [hq]
  simp only [stepRegionHeuristic, hb, if_true]
  cases hdict : dictGet common_regions (pyStrip (keepChars regionKeep (pyLower m))) with
  | some r => rfl
  | none =>
    split_ifs with hcond
    · rfl
    · exact hq

theorem region_tiers_congr (q p : Profile) (m : String) (h : q.region = p.region) :
    region_tiers q m = region_tiers p m := by
  unfold region_tiers
  rw [h]

theorem region_steps_eq (m : String) (q : Profile) :
    (stepRegionHeuristic m (stepRegionKeyword m q)).region = region_tiers q m := by
  by_cases hr : q.region = ""
  · have hb : (q.region == "") = true := by simp [hr]
    have hb' : (q.region != "") = false := by simp [hr]
    cases hcap : region_keyword_capture m with
    | none =>
      have h3 : stepRegionKeyword m q = q := by
        simp [stepRegionKeyword, hb, hcap]
      rw [h3, heuristic_region_empty m q hr]
      simp only [region_tiers, hb', hcap, Bool.false_eq_true, if_false]
      rfl
    | some grp =>
      have h3 : stepRegionKeyword m q = { q with region := pyStrip grp } := by
        simp [stepRegionKeyword, hb, hcap]
      rw [h3]
      by_cases hg : pyStrip grp = ""
      · have h4 := heuristic_region_empty m { q with region := pyStrip grp } (by simpa using hg)
        rw [h4]
        simp only [region_tiers, hb', hcap, Bool.false_eq_true, if_false]
        have hg' : (pyStrip grp != "") = false := by simp [hg]
        rw [hg']
        rfl
      · have h4 : (stepRegionHeuristic m { q with region := pyStrip grp }).region = pyStrip grp :=
          stepRegionHeuristic_keep m _ (by simpa using hg)
        rw [h4]
        simp only [region_tiers, hb', hcap, Bool.false_eq_true, if_false]
        have hg' : (pyStrip grp != "") = true := by simp [hg]
        rw [hg']
        simp
  · have h3 : (stepRegionKeyword m q).region = q.region := stepRegionKeyword_keep m q hr
    have h4 : (stepRegionHeuristic m (stepRegionKeyword m q)).region = q.region := by
      rw [stepRegionHeuristic_keep m _ (by rw [h3]; exact hr), h3]
    rw [h4]
    have hb' : (q.region != "") = true := by simp [hr]
    simp [region_tiers, hb']

/-- C5: for every profile and message, the region field produced by the
extractor equals the spec's three-tier fallback: the keyword capture first, the
common-regions lookup only when that found nothing, and the guarded catch-all
(normalization length 3-40, solely letters/spaces, no other-field keyword, not a
bare greeting) only when both earlier tiers found nothing. -/
theorem extract_region_three_tiers (p : Profile) (m : String) :
    (extract_profile_from_message p (some m)).region = region_tiers p m := by
  by_cases hm : m = ""
  · subst hm
    have h1 : extract_profile_from_message p (some "") = p := rfl
    rw [h1]
    obtain ⟨a, b, r⟩ := p
    by_cases hr : r = ""
    · subst hr
      rfl
    · have hb' : ((Profile.mk a b r).region != "") = true := by simpa using hr
      simp [region_tiers, hb']
  · have h4 : extract_profile_from_message p (some m) =
        stepRegionHeuristic m (stepRegionKeyword m (stepConcern m (stepPreparingFor m p))) := by
      simp [extract_profile_from_message, hm]
    have hreg : (stepConcern m (stepPreparingFor m p)).region = p.region := by
      rw [stepConcern_region, stepPreparingFor_region]
    rw [h4, region_steps_eq m (stepConcern m (stepPreparingFor m p)),
      region_tiers_congr _ _ _ hreg]

/-- C10: the single message "flooding", applied to a profile with concern and
region both unset, sets both fields to the same trimmed message text in one
pass: the concern acceptance conditions do not stop the region tier-3 catch-all
from also claiming the utterance. -/
theorem extract_flooding_claims_both :
    extract_profile_from_message ⟨"", "", ""⟩ (some ("flooding")) = ⟨"", "flooding", "flooding"⟩ ∧
    pyStrip ("flooding") = "flooding" := by
  constructor
  · decide
  · decide

/-- Split a character list on a separator character (Python str.split(sep):
`n` separators yield `n+1` pieces, empty pieces preserved). -/
def splitOnChar (sep : Char) : List Char → List (List Char)
  | [] => [[]]
  | c :: rest =>
    let r := splitOnChar sep rest
    if c == sep then [] :: r
    else
      match r with
      | [] => [[c]]
      | h :: t => (c :: h) :: t

theorem splitOnChar_ne_nil (sep : Char) (cs : List Char) : splitOnChar sep cs ≠ [] := by
  induction cs with
  | nil => simp [splitOnChar]
  | cons c rest ih =>
    unfold splitOnChar
    by_cases h : c == sep
    · simp [h]
    · simp only [h, Bool.false_eq_true, if_false]
      cases hr : splitOnChar sep rest with
      | nil => simp
      | cons a t => simp

theorem contains_of_splitOnChar_two (sep : Char) (cs : List Char) :
    2 ≤ (splitOnChar sep cs).length → cs.contains sep = true := by
  induction cs with
  | nil => intro h; simp [splitOnChar] at h
  | cons c rest ih =>
    intro h
    unfold splitOnChar at h
    by_cases hc : c == sep
    · have hcs : c = sep := by simpa using hc
      simp [List.contains_cons, hcs]
    · simp only [hc, Bool.false_eq_true, if_false] at h
      cases hr : splitOnChar sep rest with
      | nil => exact absurd hr (splitOnChar_ne_nil sep rest)
      | cons a t =>
        rw [hr] at h
        simp only [List.length_cons] at h
        have h2 : 2 ≤ (splitOnChar sep rest).length := by rw [hr]; simpa using h
        have hmem : sep ∈ rest := by simpa using ih h2
        simp [List.contains_cons, hmem]

/-- Character admitted by the `[^\s@]` classes of the first validation regex. -/
def notSpaceNotAt (c : Char) : Bool :=
  !isSpaceChar c && c != '@'

/-- Models re.match(r'^[^\s@]+@[^\s@]+\.[^\s@]+$', email): exactly one at-sign;
a non-empty run of non-space non-at characters before it; after it a non-empty
run of non-space non-at characters containing a dot with non-empty text on both
sides.  The Python `$` also tolerates one trailing newline; that corner is
modelled as strict end of string (no claim involves control characters). -/
def email_shape (email : String) : Bool :=
  match splitOnChar '@' email.data with
  | [a, d] =>
    !a.isEmpty && a.all (fun c => !isSpaceChar c) && d.all (fun c => !isSpaceChar c) &&
      (d.drop 1).dropLast.contains '.'
  | _ => false

/-- Models re.match(r'^\w+(\.\w+)*\.\w{2,}$', domain): dot-separated non-empty
word-character labels, at least two labels, last label at least two characters. -/
def domain_shape (dom : List Char) : Bool :=
  let parts := splitOnChar '.' dom
  decide (2 ≤ parts.length) && parts.all (fun g => !g.isEmpty && g.all isWordChar) &&
    (match parts.getLast? with
     | some g => decide (2 ≤ g.length)
     | none => false)

/-- Python email.rsplit('@', 1): the pieces before and after the last at-sign,
or none when there is no at-sign. -/
def rsplitLast (sep : Char) : List Char → Option (List Char × List Char)
  | [] => none
  | c :: rest =>
    match rsplitLast sep rest with
    | some (l, r) => some (c :: l, r)
    | none => if c == sep then some ([], rest) else none

theorem rsplitLast_eq (sep : Char) :
    ∀ (cs l r : List Char), rsplitLast sep cs = some (l, r) → cs = l ++ sep :: r := by
  intro cs
  induction cs with
  | nil => intro l r h; exact absurd h (by simp [rsplitLast])
  | cons c rest ih =>
    intro l r h
    unfold rsplitLast at h
    cases hr : rsplitLast sep rest with
    | some lr =>
      rw [hr] at h
      obtain ⟨l', r'⟩ := lr
      simp only [Option.some.injEq, Prod.mk.injEq] at h
      obtain ⟨h1, h2⟩ := h
      rw [← h1, ← h2] at *
      have := ih l' r' hr
      rw [← h1]
      simp [this]
    | none =>
      rw [hr] at h
      by_cases hc : c == sep
      · simp only [hc, if_true] at h
        simp only [Option.some.injEq, Prod.mk.injEq] at h
        obtain ⟨h1, h2⟩ := h
        have hcs : c = sep := by simpa using hc
        rw [← h1, ← h2, hcs]
        simp
      · simp [hc] at h

/-- Models validate_email from main.py.  The source's sequence of early False
returns becomes a Boolean conjunction chain in source order: overall shape
regex, then local-part checks (non-empty, at most 64 characters, no leading,
trailing or doubled dot), then domain checks (at least 3 characters, the
dotted-labels regex, no leading or trailing hyphen). -/
def validate_email (email : String) : Bool :=
  (email != "") &&
  email_shape email &&
  (match rsplitLast '@' email.data with
   | none => false
   | some (lp, dom) =>
     !(lp.isEmpty || decide (64 < lp.length)) &&
     !(lp.head? == some '.' || lp.getLast? == some '.' ||
        (lp.zip lp.tail).any (fun ab => ab.1 == '.' && ab.2 == '.')) &&
     !(decide (dom.length < 3) || !domain_shape dom) &&
     !(dom.head? == some '-' || dom.getLast? == some '-'))

/-- Match attempt at one position for the loose candidate pattern
`\b[^\s@]+@[^\s]+\b`: a word boundary, then the maximal non-space non-at run
(which backtracking cannot shorten, since only an at-sign may follow it), a
literal at-sign, then the longest non-empty prefix of the following non-space
run that ends at a word boundary. -/
def candidateAt (prev : Option Char) (cs : List Char) : Option (List Char) :=
  let r1 := cs.takeWhile notSpaceNotAt
  if r1.isEmpty || !(wordBoundary prev cs.head?) then none
  else
    match cs.drop r1.length with
    | '@' :: tail2 =>
      let r2 := tail2.takeWhile (fun c => !isSpaceChar c)
      (List.range r2.length).reverse.findSome? fun k =>
        let l := k + 1
        if wordBoundary ((r2.take l).getLast?) ((tail2.drop l).head?) then
          some (r1 ++ '@' :: tail2.take l)
        else none
    | _ => none

/-- Left-to-right scan of re.search for the candidate pattern. -/
def candidateSearch : Option Char → List Char → Option (List Char)
  | _, [] => none
  | prev, c :: rest =>
    match candidateAt prev (c :: rest) with
    | some tok => some tok
    | none => candidateSearch (some c) rest

/-- Models detect_email_candidate from main.py: the leftmost match of
`\b[^\s@]+@[^\s]+\b`, an email-like token including malformed ones. -/
def detect_email_candidate (message : String) : Option String :=
  (candidateSearch none message.data).map String.mk

/-- Character class `[A-Za-z0-9._%+-]` of the strict email pattern. -/
def emailLocalChar (c : Char) : Bool :=
  c.isAlpha || c.isDigit || c == '.' || c == '_' || c == '%' || c == '+' || c == '-'

/-- Character class `[A-Za-z0-9.-]` of the strict email pattern. -/
def emailDomainChar (c : Char) : Bool :=
  c.isAlpha || c.isDigit || c == '.' || c == '-'

/-- Character class `[A-Z|a-z]` of the strict email pattern (the source's class
literally includes the bar character). -/
def emailTldChar (c : Char) : Bool :=
  c.isAlpha || c == '|'

/-- Match attempt at one position for the strict pattern
`\b[A-Za-z0-9._%+-]+@[A-Za-z0-9.-]+\.[A-Z|a-z]{2,}\b`: a word boundary, the
maximal local run followed by a literal at-sign, then (backtracking greedily)
the domain class consuming `t ≥ 1` characters such that a literal dot follows,
then a greedy TLD run of at least two characters ending at a word boundary. -/
def emailAt (prev : Option Char) (cs : List Char) : Option (List Char) :=
  let r1 := cs.takeWhile emailLocalChar
  if r1.isEmpty || !(wordBoundary prev cs.head?) then none
  else
    match cs.drop r1.length with
    | '@' :: tail2 =>
      let r2 := tail2.takeWhile emailDomainChar
      (List.range r2.length).reverse.findSome? fun k =>
        let t := k + 1
        if (tail2.drop t).head? == some '.' then
          let r3 := (tail2.drop (t + 1)).takeWhile emailTldChar
          (List.range (r3.length - 1)).reverse.findSome? fun j =>
            let u := j + 2
            if wordBoundary ((r3.take u).getLast?) ((tail2.drop (t + 1 + u)).head?) then
              some (r1 ++ '@' :: (tail2.take t ++ '.' :: (tail2.drop (t + 1)).take u))
            else none
        else none
    | _ => none

/-- Left-to-right scan of re.search for the strict email pattern. -/
def emailSearch : Option Char → List Char → Option (List Char)
  | _, [] => none
  | prev, c :: rest =>
    match emailAt prev (c :: rest) with
    | some tok => some tok
    | none => emailSearch (some c) rest

/-- Models detect_email_in_message from main.py: the leftmost match of the
strict email pattern, or none. -/
def detect_email_in_message (message : String) : Option String :=
  (emailSearch none message.data).map String.mk

theorem not_or_eq_true {a b : Bool} (h : (!(a || b)) = true) : a = false ∧ b = false := by
  cases a <;> cases b <;> simp_all

theorem not_or3_eq_true {a b c : Bool} (h : (!(a || b || c)) = true) :
    a = false ∧ b = false ∧ c = false := by
  cases a <;> cases b <;> cases c <;> simp_all

theorem isEmpty_false_ne_nil {α : Type} {l : List α} (h : l.isEmpty = false) : l ≠ [] := by
  cases l <;> simp_all

/-- C6: validate_email accepts "john@example.com" and rejects "john@@example"
and "john@example"; and whenever it accepts a string, that string splits at its
last at-sign into a local part and a domain such that the domain contains a dot,
the local part is non-empty, at most 64 characters, with no leading, trailing or
doubled dot, and the domain is at least 3 characters, matches the dot-separated
word-labels shape with a final label of at least two characters, and neither
starts nor ends with a hyphen. -/
theorem validate_email_spec :
    validate_email ("john@example.com") = true ∧
    validate_email ("john@@example") = false ∧
    validate_email ("john@example") = false ∧
    ∀ e : String, validate_email e = true →
      ∃ lp dom : List Char,
        e.data = lp ++ '@' :: dom ∧
        dom.contains '.' = true ∧
        lp ≠ [] ∧
        lp.length ≤ 64 ∧
        lp.head? ≠ some '.' ∧
        lp.getLast? ≠ some '.' ∧
        ((lp.zip lp.tail).any (fun ab => ab.1 == '.' && ab.2 == '.')) = false ∧
        3 ≤ dom.length ∧
        domain_shape dom = true ∧
        dom.head? ≠ some '-' ∧
        dom.getLast? ≠ some '-' := by
  refine ⟨by decide, by decide, by decide, ?_⟩
  intro e h
  unfold validate_email at h
  simp only [Bool.and_eq_true] at h
  obtain ⟨⟨-, -⟩, h3⟩ := h
  cases hrs : rsplitLast '@' e.data with
  | none => rw [hrs] at h3; simp at h3
  | some lr =>
    obtain ⟨lp, dom⟩ := lr
    rw [hrs] at h3
    simp only [Bool.and_eq_true] at h3
    obtain ⟨⟨⟨hA, hB⟩, hC⟩, hD⟩ := h3
    obtain ⟨hemp, hlen⟩ := not_or_eq_true hA
    obtain ⟨hh, hl, hdd⟩ := not_or3_eq_true hB
    obtain ⟨hd3, hds⟩ := not_or_eq_true hC
    obtain ⟨hdh, hdl⟩ := not_or_eq_true hD
    have hshape : domain_shape dom = true := by
      cases hx : domain_shape dom
      · rw [hx] at hds; simp at hds
      · rfl
    have hparts : 2 ≤ (splitOnChar '.' dom).length := by
      unfold domain_shape at hshape
      simp only [Bool.and_eq_true] at hshape
      exact of_decide_eq_true hshape.1.1
    refine ⟨lp, dom, rsplitLast_eq '@' e.data lp dom hrs,
      contains_of_splitOnChar_two '.' dom hparts,
      isEmpty_false_ne_nil hemp,
      Nat.le_of_not_lt (of_decide_eq_false hlen),
      ?_, ?_, hdd, Nat.le_of_not_lt (of_decide_eq_false hd3), hshape, ?_, ?_⟩
    · exact beq_eq_false_iff_ne.mp hh
    · exact beq_eq_false_iff_ne.mp hl
    · exact beq_eq_false_iff_ne.mp hdh
    · exact beq_eq_false_iff_ne.mp hdl

/-- C6 witness: the general acceptance description instantiated at the concrete
accepted address. -/
theorem validate_email_spec_witness :
    validate_email ("john@example.com") = true ∧
    (∃ lp dom : List Char,
      ("john@example.com" : String).data = lp ++ '@' :: dom ∧
      dom.contains '.' = true ∧
      lp ≠ [] ∧
      lp.length ≤ 64 ∧
      lp.head? ≠ some '.' ∧
      lp.getLast? ≠ some '.' ∧
      ((lp.zip lp.tail).any (fun ab => ab.1 == '.' && ab.2 == '.')) = false ∧
      3 ≤ dom.length ∧
      domain_shape dom = true ∧
      dom.head? ≠ some '-' ∧
      dom.getLast? ≠ some '-') :=
  ⟨by decide, validate_email_spec.2.2.2 ("john@example.com") (by decide)⟩

/-- Chat message model: role plus text content. -/
structure Message where
  role : String
  content : String
deriving DecidableEq, Repr

/-- Body of POST /api/chat. -/
structure ChatRequest where
  messages : List Message
  profile : SDict
deriving DecidableEq, Repr

/-- JSON response of POST /api/chat. -/
structure ChatResponse where
  reply : String
  profile : Profile
  readyForEmail : Bool
deriving DecidableEq, Repr

/-- A chat turn's response together with whether the handler invoked
call_openai on this turn (the embedding makes the external call explicit). -/
structure ChatOutcome where
  resp : ChatResponse
  usedCompletion : Bool
deriving DecidableEq, Repr

/-- Merged value of one fixed field under normalize_profile: the last non-empty
caller-supplied value for the key, else the template's empty string. -/
def mergedField (d : SDict) (k : String) : String :=
  match (d.filter (fun kv => kv.1 == k && kv.2 != "")).getLast? with
  | some kv => kv.2
  | none => ""

/-- Projection of normalize_profile onto the three fixed fields, the only keys
the handler pipeline reads or writes. -/
def normalize_profileP (d : SDict) : Profile :=
  ⟨mergedField d ("preparingFor"), mergedField d ("concern"), mergedField d ("region")⟩

/-- Dict view of a handler profile, for feeding the three fixed fields to
get_missing_fields. -/
def profileDict (p : Profile) : SDict :=
  [("preparingFor", p.preparingFor), ("concern", p.concern), ("region", p.region)]

/-- get_missing_fields applied to a handler profile. -/
def get_missing_fieldsP (p : Profile) : List String :=
  get_missing_fields (profileDict p)

/-- Python dict(QUESTION_ORDER)[k]: the canned question for a field name (the
handler only looks up keys present in QUESTION_ORDER). -/
def questionFor (k : String) : String :=
  match QUESTION_ORDER.find? (fun kv => kv.1 == k) with
  | some kv => kv.2
  | none => ""

/-- Python dict(QUESTION_ORDER)[missing[0]], used where the handler has already
established that missing is non-empty. -/
def firstQuestion (missing : List String) : String :=
  match missing with
  | k :: _ => questionFor k
  | [] => ""

/-- Models build_chat_reply from main.py: the canned ready message when nothing
is missing, else the canned question for the first missing field. -/
def build_chat_reply (profile : Profile) (missing : List String) : String :=
  if missing.isEmpty then
    "Thanks — I have what I need. If you\x27d like, I can generate a personalized preparedness guide and email it to you."
  else firstQuestion missing

/-- Models re.search(r"\bemail\b", reply, re.IGNORECASE). -/
def mentionsEmail (reply : String) : Bool :=
  searchWord ["email"] (pyLower reply)

/-- Python truthiness of an optional string. -/
def optTruthy : Option String → Bool
  | none => false
  | some s => s != ""

/-- Python `a or b` for an optional string against a fallback. -/
def pyOr (a : Option String) (b : String) : String :=
  match a with
  | some s => if s == "" then b else s
  | none => b

/-- Models next((m for m in reversed(req.messages) if m.role == "user"), None),
then .content. -/
def latestUserContent (msgs : List Message) : Option String :=
  (msgs.reverse.find? (fun m => m.role == "user")).map Message.content

/-- Profile state after the handler's normalize + extract steps. -/
def chatProfile (req : ChatRequest) : Profile :=
  extract_profile_from_message (normalize_profileP req.profile) (latestUserContent req.messages)

/-- Missing fields of the handler's post-extraction profile. -/
def chatMissing (req : ChatRequest) : List String :=
  get_missing_fieldsP (chatProfile req)

/-- Models the /api/chat handler from main.py.  `aiReply` stands for the value
call_openai would return if invoked on this turn (None when the completion
client is unconfigured or errored); `usedCompletion` records whether the
handler reached the call_openai line.  Branches in source order: the invalid
email-candidate pre-emption, the two detected-email branches, then the
completion call and reply selection. -/
def chat (req : ChatRequest) (aiReply : Option String) : ChatOutcome :=
  let profile := chatProfile req
  let missing := chatMissing req
  let latest_text := (latestUserContent req.messages).getD ""
  let badCandidate : Option String :=
    if latest_text == "" then none
    else
      match detect_email_candidate latest_text with
      | some cand => if validate_email cand then none else some cand
      | none => none
  match badCandidate with
  | some cand =>
    ⟨⟨"\x27" ++ cand ++ "\x27 is not a valid email format. Please provide a correct email like name@example.com." ++
        (match missing with
         | [] => ""
         | k :: _ => " " ++ questionFor k),
      profile, missing.isEmpty⟩, false⟩
  | none =>
    let detected : Option String :=
      if latest_text == "" then none else detect_email_in_message latest_text
    match detected with
    | some _ =>
      if missing.isEmpty then
        ⟨⟨"That email format looks valid. Please enter it in the email field below and click \x27Send my guide\x27.",
          profile, true⟩, false⟩
      else
        ⟨⟨"Thanks. I will collect your email after we finish your profile. " ++ firstQuestion missing,
          profile, false⟩, false⟩
    | none =>
      let reply :=
        if !missing.isEmpty && optTruthy aiReply && mentionsEmail (aiReply.getD ("")) then
          build_chat_reply profile missing
        else
          pyOr aiReply (build_chat_reply profile missing)
      ⟨⟨reply, profile, missing.isEmpty⟩, true⟩

/-- C9: on every return path of /api/chat, the readyForEmail flag is true
exactly when the profile returned in the same response has no missing fields. -/
theorem chat_ready_iff_complete (req : ChatRequest) (a : Option String) :
    ((chat req a).resp.readyForEmail = true) ↔
      get_missing_fieldsP ((chat req a).resp.profile) = [] := by
  unfold chat
  dsimp only
  split
  · simp [List.isEmpty_iff, chatMissing]
  · split
    · split_ifs with hm
      · constructor
        · intro _
          exact (List.isEmpty_iff).mp (by simpa [chatMissing] using hm)
        · intro _; rfl
      · constructor
        · intro hfalse; exact absurd hfalse (by simp)
        · intro hnil
          exact absurd ((List.isEmpty_iff).mpr hnil) (by simpa [chatMissing] using hm)
    · simp [List.isEmpty_iff, chatMissing]

/-- C7: whenever the latest user message contains a loose email-shaped candidate
token that fails strict validation, the chat handler replies with the format
correction naming the candidate (appending the first missing field's question
when fields are missing), does not invoke the completion service on that turn,
and the response does not depend on the completion service at all. -/
theorem chat_invalid_candidate (req : ChatRequest) (a : Option String) (t c : String)
    (hlatest : latestUserContent req.messages = some t)
    (hne : t ≠ "")
    (hcand : detect_email_candidate t = some c)
    (hval : validate_email c = false) :
    (chat req a).usedCompletion = false ∧
    (chat req a).resp.reply =
      "\x27" ++ c ++ "\x27 is not a valid email format. Please provide a correct email like name@example.com." ++
        (match chatMissing req with
         | [] => ""
         | k :: _ => " " ++ questionFor k) ∧
    chat req a = chat req none := by
  have hbe : (t == "") = false := by simp [hne]
  have hchat : ∀ b : Option String,
      chat req b =
        ⟨⟨"\x27" ++ c ++ "\x27 is not a valid email format. Please provide a correct email like name@example.com." ++
            (match chatMissing req with
             | [] => ""
             | k :: _ => " " ++ questionFor k),
          chatProfile req, (chatMissing req).isEmpty⟩, false⟩ := by
    intro b
    unfold chat
    simp only [hlatest, Option.getD_some, hbe, Bool.false_eq_true, if_false, hcand, hval]
  refine ⟨?_, ?_, ?_⟩
  · rw [hchat a]
  · rw [hchat a]
  · rw [hchat a, hchat none]

/-- C7 witness: a concrete request whose only user message is the malformed
token "john@@example"; the extractor files the token into concern and region,
leaving preparingFor missing, so its question is appended. -/
theorem chat_invalid_candidate_witness :
    (chat ⟨[⟨"user", "john@@example"⟩], []⟩ (some ("ai text"))).usedCompletion = false ∧
    (chat ⟨[⟨"user", "john@@example"⟩], []⟩ (some ("ai text"))).resp.reply =
      "\x27" ++ "john@@example" ++ "\x27 is not a valid email format. Please provide a correct email like name@example.com." ++
        (match chatMissing ⟨[⟨"user", "john@@example"⟩], []⟩ with
         | [] => ""
         | k :: _ => " " ++ questionFor k) ∧
    chat ⟨[⟨"user", "john@@example"⟩], []⟩ (some ("ai text")) =
      chat ⟨[⟨"user", "john@@example"⟩], []⟩ none :=
  chat_invalid_candidate ⟨[⟨"user", "john@@example"⟩], []⟩ (some ("ai text"))
    "john@@example" "john@@example" (by decide) (by decide) (by decide) (by decide)

/-- Modelled from the spec: the latest message pre-empts the completion service
when it contains an email-shaped candidate failing validation, or a strict
email match. -/
def preemptsCompletion (t : String) : Bool :=
  t != "" &&
    ((match detect_email_candidate t with
      | some c => !(validate_email c)
      | none => false) ||
     (detect_email_in_message t).isSome)

/-- C8: on every chat turn that reaches the reply-selection step (no email
pre-emption), the reply is the completion service's non-empty text, unless
fields are missing and that text mentions the word email, in which case it is
the canned question for the first missing field; when the service returned
nothing, the reply is the canned ready message if nothing is missing, else the
canned question for the first missing field. -/
theorem chat_reply_selection (req : ChatRequest) (a : Option String)
    (hpre : preemptsCompletion ((latestUserContent req.messages).getD ("")) = false) :
    (∀ s, a = some s → s ≠ "" → (chatMissing req = [] ∨ mentionsEmail s = false) →
      (chat req a).resp.reply = s) ∧
    (∀ s k ks, a = some s → s ≠ "" → chatMissing req = k :: ks → mentionsEmail s = true →
      (chat req a).resp.reply = questionFor k) ∧
    ((a = none ∨ a = some ("")) → chatMissing req = [] →
      (chat req a).resp.reply =
        "Thanks — I have what I need. If you\x27d like, I can generate a personalized preparedness guide and email it to you.") ∧
    ((a = none ∨ a = some ("")) → ∀ k ks, chatMissing req = k :: ks →
      (chat req a).resp.reply = questionFor k) := by
  have hsel : (chat req a).resp.reply =
      (if !(chatMissing req).isEmpty && optTruthy a && mentionsEmail (a.getD ("")) then
        build_chat_reply (chatProfile req) (chatMissing req)
      else pyOr a (build_chat_reply (chatProfile req) (chatMissing req))) := by
    unfold preemptsCompletion at hpre
    unfold chat
    by_cases ht : (latestUserContent req.messages).getD "" = ""
    · simp only [ht]
      simp only [show (("" : String) == "") = true from rfl, if_true]
    · have htb : ((latestUserContent req.messages).getD "" != "") = true := by simp [ht]
      rw [htb] at hpre
      simp only [Bool.true_and, Bool.or_eq_false_iff] at hpre
      obtain ⟨h1, h2⟩ := hpre
      have hbe : ((latestUserContent req.messages).getD "" == "") = false := by simp [ht]
      simp only [hbe, Bool.false_eq_true, if_false]
      cases hcand : detect_email_candidate ((latestUserContent req.messages).getD "") with
      | some c =>
        rw [hcand] at h1
        dsimp only at h1
        have hv : validate_email c = true := by
          cases hx : validate_email c
          · rw [hx] at h1; simp at h1
          · rfl
        simp only [hv, if_true]
        cases hdet : detect_email_in_message ((latestUserContent req.messages).getD "") with
        | some d => rw [hdet] at h2; simp at h2
        | none => simp only [hdet]
      | none =>
        simp only [hcand]
        cases hdet : detect_email_in_message ((latestUserContent req.messages).getD "") with
        | some d => rw [hdet] at h2; simp at h2
        | none => simp only [hdet]
  refine ⟨?_, ?_, ?_, ?_⟩
  · rintro s rfl hs hcase
    rw [hsel]
    have hopt : optTruthy (some s) = true := by simp [optTruthy, hs]
    rcases hcase with hnil | hmail
    · have : ((chatMissing req).isEmpty) = true := (List.isEmpty_iff).mpr hnil
      simp [this, hopt, pyOr, hs]
    · simp [hopt, hmail, pyOr, hs]
  · rintro s k ks rfl hs hm hmail
    rw [hsel]
    have hopt : optTruthy (some s) = true := by simp [optTruthy, hs]
    have hne : ((chatMissing req).isEmpty) = false := by simp [hm]
    simp [hopt, hmail, hne, hm, build_chat_reply, firstQuestion]
  · rintro (rfl | rfl) hnil
    · rw [hsel]
      have : ((chatMissing req).isEmpty) = true := (List.isEmpty_iff).mpr hnil
      simp [optTruthy, pyOr, build_chat_reply, this]
    · rw [hsel]
      have : ((chatMissing req).isEmpty) = true := (List.isEmpty_iff).mpr hnil
      simp [optTruthy, pyOr, build_chat_reply, this]
  · rintro (rfl | rfl) k ks hm
    · rw [hsel]
      have hne : ((chatMissing req).isEmpty) = false := by simp [hm]
      simp [optTruthy, pyOr, build_chat_reply, hne, hm, firstQuestion]
    · rw [hsel]
      have hne : ((chatMissing req).isEmpty) = false := by simp [hm]
      simp [optTruthy, pyOr, build_chat_reply, hne, hm, firstQuestion]

/-- C8 witness: with the message "flooding" (no email token) and no completion
reply, the handler falls back to the canned question for the first missing
field, which is preparingFor. -/
theorem chat_reply_selection_witness :
    (chat ⟨[⟨"user", "flooding"⟩], []⟩ none).resp.reply = questionFor ("preparingFor") :=
  (chat_reply_selection ⟨[⟨"user", "flooding"⟩], []⟩ none (by decide)).2.2.2
    (Or.inl rfl) "preparingFor" [] (by decide)

/-- Body of POST /api/guide (the email field has already passed pydantic's
EmailStr schema validation). -/
structure GuideRequest where
  email : String
  profile : SDict
deriving DecidableEq, Repr

/-- JSON response of POST /api/guide. -/
structure GuideResponse where
  ok : Bool
deriving DecidableEq, Repr

/-- Interface model of create_pdf's output: the rendered document is determined
by the title, body text and profile handed to the delegated reportlab canvas;
the claims never inspect the binary layout. -/
structure PdfDoc where
  title : String
  body : String
  profile : Profile
deriving DecidableEq, Repr

/-- Models create_pdf from main.py at its interface. -/
def create_pdf (title : String) (body : String) (profile : Profile) : PdfDoc :=
  ⟨title, body, profile⟩

/-- Outcome of the SMTP session attempted by send_email: the connect, starttls,
login and send sequence either completes or raises with some error. -/
inductive SmtpOutcome where
  | sent
  | raised (msg : String)
deriving DecidableEq, Repr

/-- Environment-sourced SMTP configuration (None models an unset variable;
an empty string is falsy like in Python). -/
structure SmtpConfig where
  smtpUser : Option String
  smtpPass : Option String
  smtpFromEnv : Option String
deriving DecidableEq, Repr

/-- Models SMTP_FROM = os.getenv("SMTP_FROM") or SMTP_USER. -/
def SMTP_FROM (cfg : SmtpConfig) : Option String :=
  if optTruthy cfg.smtpFromEnv then cfg.smtpFromEnv else cfg.smtpUser

/-- Guard of send_email: `not SMTP_USER or not SMTP_PASS or not SMTP_FROM`. -/
def smtpUnconfigured (cfg : SmtpConfig) : Bool :=
  !(optTruthy cfg.smtpUser) || !(optTruthy cfg.smtpPass) || !(optTruthy (SMTP_FROM cfg))

/-- Models send_email from main.py: with missing credentials it logs a warning
and returns without sending; otherwise it runs the SMTP session, and the
session's exception — there is no try/except in the source — propagates to the
caller as `Except.error`. -/
def send_email (cfg : SmtpConfig) (outcome : SmtpOutcome) (email : String) (pdf : PdfDoc) :
    Except String Unit :=
  if smtpUnconfigured cfg then Except.ok ()
  else
    match outcome with
    | SmtpOutcome.sent => Except.ok ()
    | SmtpOutcome.raised e => Except.error e

/-- Fallback guide text of build_guide_text, interpolating the profile's
preparingFor and region fields. -/
def guideFallback (profile : Profile) : String :=
  "Overview\nYou are preparing for " ++ profile.preparingFor ++ " in " ++ profile.region ++
    ".\n\nChecklist\n- Secure water and food supplies\n- Prepare lighting and power backups\n- Establish a communication plan\n- Review local alerts\n\nNext Steps\nStart with essentials and expand gradually."

/-- Models build_guide_text from main.py: call_openai(messages) or fallback.
`aiGuide` is the completion call's result; the reference-page fetch only
enriches the prompt (and degrades to an empty string on failure), so it is
absorbed into that parameter. -/
def build_guide_text (aiGuide : Option String) (profile : Profile) : String :=
  pyOr aiGuide (guideFallback profile)

/-- Models the /api/guide handler from main.py: normalize the profile, compose
the guide text, render the document, then send it; an exception raised by
send_email propagates out of the handler (an HTTP 500), and only when
send_email returns does the handler answer `{ok: true}`. -/
def guide (cfg : SmtpConfig) (aiGuide : Option String) (outcome : SmtpOutcome)
    (req : GuideRequest) : Except String GuideResponse :=
  let profile := normalize_profileP req.profile
  let text := build_guide_text aiGuide profile
  let pdf := create_pdf ("Personalized Survival Guide") text profile
  match send_email cfg outcome req.email pdf with
  | Except.ok _ => Except.ok ⟨true⟩
  | Except.error e => Except.error e

/-- C1 counterexample: with SMTP credentials configured and the SMTP session
raising, the guide endpoint propagates the delivery error instead of returning
ok — the claim that a delivery failure never propagates fails as stated. -/
theorem guide_delivery_error_propagates :
    guide ⟨some ("smtp-user"), some ("smtp-pass"), none⟩ none
        (SmtpOutcome.raised ("connection refused")) ⟨"john@example.com", []⟩ =
      Except.error ("connection refused") ∧
    guide ⟨some ("smtp-user"), some ("smtp-pass"), none⟩ none
        (SmtpOutcome.raised ("connection refused")) ⟨"john@example.com", []⟩ ≠
      Except.ok ⟨true⟩ := by
  constructor
  · rfl
  · intro h
    rw [show guide ⟨some ("smtp-user"), some ("smtp-pass"), none⟩ none
        (SmtpOutcome.raised ("connection refused")) ⟨"john@example.com", []⟩ =
      Except.error ("connection refused") from rfl] at h
    exact Except.noConfusion h

/-- C1 amended: /api/guide answers `{ok: true}` exactly when delivery was a
no-op (SMTP unconfigured: missing user, password or from-address) or the SMTP
session completed; when SMTP is configured and the session raises, the handler
propagates that error instead of reporting success. -/
theorem guide_ok_characterization (cfg : SmtpConfig) (aiGuide : Option String)
    (outcome : SmtpOutcome) (req : GuideRequest) :
    ((guide cfg aiGuide outcome req = Except.ok ⟨true⟩) ↔
      (smtpUnconfigured cfg = true ∨ outcome = SmtpOutcome.sent)) ∧
    (∀ e, smtpUnconfigured cfg = false → outcome = SmtpOutcome.raised e →
      guide cfg aiGuide outcome req = Except.error e) := by
  constructor
  · unfold guide send_email
    by_cases hu : smtpUnconfigured cfg = true
    · simp [hu]
    · cases outcome with
      | sent => simp [hu]
      | raised e => simp [hu]
  · intro e hu hout
    subst hout
    unfold guide send_email
    simp [hu]

/-- C1 witness: the amended characterization instantiated at a configured SMTP
setup whose session raises. -/
theorem guide_ok_characterization_witness :
    guide ⟨some ("smtp-user"), some ("smtp-pass"), some ("from@example.com")⟩ (some ("guide text"))
        (SmtpOutcome.raised ("boom")) ⟨"john@example.com", [("concern", "storms")]⟩ =
      Except.error ("boom") :=
  (guide_ok_characterization ⟨some ("smtp-user"), some ("smtp-pass"), some ("from@example.com")⟩
      (some ("guide text")) (SmtpOutcome.raised ("boom"))
      ⟨"john@example.com", [("concern", "storms")]⟩).2 "boom" (by decide) rfl

end YSE
